import Mathlib

/-!
Shallow embedding of the anonminer mining core (Rust) used to check the
specification's claims.  Pure data paths of `worker.rs`, `stratum.rs`,
`hash_rate.rs` and `main.rs` are translated into executable Lean
definitions; machine integers become `Nat` with explicit `% 2^32` /
`% 2^64` where wrapping matters; fallible Rust paths become `Option` /
`Except`; a Rust panic is modelled as `none` (or an explicit `panics`
constructor) of the surrounding result type.
-/

/-- One byte-level hex digit, as `hex::decode` accepts it
(`0-9`, `a-f`, `A-F`). -/
def hexDigitVal (c : Char) : Option Nat :=
  if '0' ≤ c ∧ c ≤ '9' then some (c.toNat - 48)
  else if 'a' ≤ c ∧ c ≤ 'f' then some (c.toNat - 87)
  else if 'A' ≤ c ∧ c ≤ 'F' then some (c.toNat - 55)
  else none

/-- `hex::decode` over a character list: consumes two hex digits per output
byte; odd length or a non-hex character fails. -/
def hexPairs : List Char → Option (List Nat)
  | [] => some []
  | [_] => none
  | c1 :: c2 :: rest =>
    match hexDigitVal c1, hexDigitVal c2, hexPairs rest with
    | some h, some l, some r => some ((16 * h + l) :: r)
    | _, _, _ => none

/-- `hex::decode` on a Rust `&str`. -/
def hexDecode (s : String) : Option (List Nat) :=
  hexPairs s.data

/-- Lower-case hex encoding of one digit (used by `serde(with = "hex")`
serialization of `nonce` / `result` in submit requests). -/
def hexDigitChar (n : Nat) : Char :=
  if n < 10 then Char.ofNat (48 + n) else Char.ofNat (87 + n)

/-- Lower-case hex encoding of a byte list, as `serde(with = "hex")`
produces for `SubmitParams.nonce` / `SubmitParams.result`. -/
def hexEncode : List Nat → String
  | [] => ""
  | b :: rest => String.mk [hexDigitChar (b / 16 % 16), hexDigitChar (b % 16)] ++ hexEncode rest

/-- `u32::to_be_bytes` of a 32-bit value (worker.rs:232,
`nonce_counter.to_be_bytes()`). -/
def be32bytes (n : Nat) : List Nat :=
  [n / 2 ^ 24 % 256, n / 2 ^ 16 % 256, n / 2 ^ 8 % 256, n % 256]

/-- `u64::from_le_bytes(hash[24..32])` (worker.rs:247-252): little-endian
64-bit value of bytes 24..32 of a 32-byte hash. -/
def le64 (h : List Nat) : Nat :=
  h.getD 24 0 + h.getD 25 0 * 2 ^ 8 + h.getD 26 0 * 2 ^ 16 + h.getD 27 0 * 2 ^ 24 +
    h.getD 28 0 * 2 ^ 32 + h.getD 29 0 * 2 ^ 40 + h.getD 30 0 * 2 ^ 48 + h.getD 31 0 * 2 ^ 56

/-- `blob[39..=42].copy_from_slice(&nonce_bytes)` (worker.rs:233).  The Rust
slice indexing panics when the blob is shorter than 43 bytes; the panic is
modelled as `none`. -/
def writeNonceSlot (blob : List Nat) (nonceBytes : List Nat) : Option (List Nat) :=
  if blob.length < 43 then none
  else some (blob.take 39 ++ nonceBytes ++ blob.drop 43)

/-- Modelled from the spec: the `Job` record of src/job.rs, which is not
included under src/.  Fields per §3 and §6: id (opaque string), blob
(bytes), seed (bytes), target (32-bit unsigned). -/
structure Job where
  id : String
  blob : List Nat
  seed : List Nat
  target : Nat
deriving Repr, DecidableEq

/-- Modelled from the spec: `Job::difficulty()` of src/job.rs (not included
under src/).  §4.2: "the 64-bit T is computed as
`T = (2^64 - 1) / ((2^32 - 1) / t)`" from the 32-bit target `t`, with
integer division as in Rust `u64` arithmetic. -/
def Job.difficulty (j : Job) : Nat :=
  (2 ^ 64 - 1) / ((2 ^ 32 - 1) / j.target)

/-- Modelled from the spec: the `Share` record of src/share.rs, which is
not included under src/.  Fields per §3: job_id, 4-byte big-endian nonce,
32-byte hash (worker.rs:259-263 populates exactly these). -/
structure Share where
  job_id : String
  nonce : List Nat
  hash : List Nat
deriving Repr, DecidableEq

/-- The per-thread mutable state of a worker thread (worker.rs:33-56):
nonce counter, local blob / difficulty / job id copies, the current seed,
and the seed the live VM was built from (`none` = no VM). -/
structure WorkerState where
  nonce_counter : Nat
  blob : List Nat
  difficulty : Nat
  job_id : String
  current_seed : List Nat
  vm : Option (List Nat)
deriving Repr, DecidableEq

/-- One hash evaluation of the worker batch loop (worker.rs:229-264):
advance the nonce by `step` with wrapping 32-bit addition, write its
big-endian bytes into `blob[39..=42]` (panic = `none` when the blob is
short), compute the hash through the oracle `hash` (a failed hash is
logged and skipped), and emit a `Share` exactly when the little-endian
u64 of hash bytes 24..32 is strictly below the local difficulty. -/
def hashStep (step : Nat) (hash : List Nat → Option (List Nat)) (st : WorkerState) :
    Option (WorkerState × Option Share) :=
  let nc := (st.nonce_counter + step) % 2 ^ 32
  match writeNonceSlot st.blob (be32bytes nc) with
  | none => none
  | some blob' =>
    let st' := { st with nonce_counter := nc, blob := blob' }
    match hash blob' with
    | none => some (st', none)
    | some h =>
      if le64 h < st.difficulty then
        some (st', some { job_id := st.job_id, nonce := be32bytes nc, hash := h })
      else
        some (st', none)

/-- `BATCH_SIZE` (worker.rs:227). -/
def BATCH_SIZE : Nat := 100

/-- A batch of `n` hash evaluations (worker.rs:229-265), collecting the
emitted shares in order; `none` propagates a panic of a single step. -/
def runBatch (step : Nat) (hash : List Nat → Option (List Nat)) :
    Nat → WorkerState → Option (WorkerState × List Share)
  | 0, st => some (st, [])
  | n + 1, st =>
    match hashStep step hash st with
    | none => none
    | some (st', osh) =>
      match runBatch step hash n st' with
      | none => none
      | some (st'', shs) => some (st'', osh.toList ++ shs)

/-- The nonce evaluated by worker `i` of `N` at its `k`-th hash
(worker.rs:54-56,230): the counter starts at `i as u32`, and before each
hash is advanced by `N as u32` with `wrapping_add`; the `as u32` casts
are the `% 2^32` reductions. -/
def workerNonce (i N k : Nat) : Nat :=
  (i % 2 ^ 32 + k * (N % 2 ^ 32)) % 2 ^ 32

/-- The outcome oracle for one pass of the fallible RandomX rebuild
operations on the seed-change path (worker.rs:141-217): whether each
construction or in-place reinitialization succeeds, and whether the
FULL_MEM flag is currently set. -/
structure RxOracle where
  cacheNew : List Nat → Bool
  reinitCache : Bool
  vmNewAfterReinitFail : Bool
  vmNewFresh : Bool
  fullMem : Bool
  datasetNew : Bool
  datasetNewFallback : Bool
  reinitDataset : Bool
  vmNewAfterReinitDatasetFail : Bool

/-- The job-update step of the worker loop (worker.rs:137-224).  When the
new job's seed differs from `current_seed`, the code first assigns
`current_seed = new_job.seed` (line 139) and only then attempts the
fallible cache / VM / dataset rebuilds; every `continue` returns to the
loop top without copying the new blob / difficulty / job id.  `vm` holds
the seed of the cache the live VM currently uses. -/
def jobUpdate (offset : Nat) (o : RxOracle) (st : WorkerState) (j : Job) : WorkerState :=
  if st.current_seed = j.seed then
    { st with blob := j.blob, difficulty := j.difficulty, job_id := j.id, nonce_counter := offset }
  else
    let st1 := { st with current_seed := j.seed }
    if o.cacheNew j.seed = false then
      st1
    else
      let vmOk : Option WorkerState :=
        match st1.vm with
        | some _ =>
          if o.reinitCache then some { st1 with vm := some j.seed }
          else if o.vmNewAfterReinitFail then some { st1 with vm := some j.seed }
          else none
        | none =>
          if o.vmNewFresh then some { st1 with vm := some j.seed }
          else none
      match vmOk with
      | none => st1
      | some st2 =>
        let datasetOk : Option WorkerState :=
          if o.fullMem then
            if o.datasetNew then
              if o.reinitDataset then some st2
              else if o.vmNewAfterReinitDatasetFail then some st2
              else none
            else
              if o.datasetNewFallback then some st2
              else none
          else some st2
        match datasetOk with
        | none => st2
        | some st3 =>
          { st3 with blob := j.blob, difficulty := j.difficulty, job_id := j.id,
                     nonce_counter := offset }

/-- The invariant claimed by the spec's data model for a worker: the seed
the live VM was built from equals `current_seed` (vacuous when no VM
exists, since the worker only hashes under `if let Some(ref vm) = vm`). -/
def seedInv (st : WorkerState) : Prop :=
  ∀ s, st.vm = some s → s = st.current_seed

instance (st : WorkerState) : Decidable (seedInv st) :=
  match h : st.vm with
  | none => isTrue (fun s hs => by rw [h] at hs; cases hs)
  | some s0 =>
    if he : s0 = st.current_seed then
      isTrue (fun s hs => by rw [h] at hs; injection hs with e; rw [← e]; exact he)
    else
      isFalse (fun hall => he (hall s0 h))

/-- `donate_level.max(1)` applied once at startup (main.rs:104). -/
def donateLevelEffective (dl : Nat) : Nat := max dl 1

/-- The donation controller's desired state at cycle time `τ` seconds
(main.rs:423-428): `current_cycle_time = τ % 6000`, donation window
`[3000, 3000 + donate_level·60)` with the already-clamped donate level. -/
def shouldBeDonating (dl τ : Nat) : Bool :=
  decide (3000 ≤ τ % 6000) && decide (τ % 6000 < 3000 + donateLevelEffective dl * 60)

/-- Warmup duration of the hash-rate tracker in nanoseconds
(hash_rate.rs:51, 45 s). -/
def warmupNs : Nat := 45 * 1000000000

/-- Sliding-window duration of the hash-rate tracker in nanoseconds
(hash_rate.rs:52, 120 s). -/
def windowNs : Nat := 120 * 1000000000

/-- The observable state of the hash-rate tracker (hash_rate.rs:39-45):
the event deque of (timestamp ns, count) pairs and the one-shot
warmup-complete flag.  Instants are modelled as nanoseconds since an
arbitrary epoch; `Instant` subtraction saturates at zero. -/
structure TrackerState where
  events : List (Nat × Nat)
  warmupComplete : Bool
deriving Repr, DecidableEq

/-- The front-eviction loop shared by `increment` / `get_total_hashes` /
`get_hash_rate` (hash_rate.rs:86-92): pop from the front while the front
timestamp is strictly older than the cutoff, stop at the first
non-old event. -/
def evictOld (cutoff : Nat) : List (Nat × Nat) → List (Nat × Nat)
  | [] => []
  | e :: rest => if e.1 < cutoff then evictOld cutoff rest else e :: rest

/-- `HashRateTracker::increment` (hash_rate.rs:59-93): a no-op while
`now - START_TIME < 45 s`; afterwards sets the warmup flag, appends the
event and evicts events older than `now - 120 s`.  `start` is the value
of `START_TIME`. -/
def TrackerState.increment (start now count : Nat) (s : TrackerState) : TrackerState :=
  if now - start < warmupNs then s
  else { warmupComplete := true, events := evictOld (now - windowNs) (s.events ++ [(now, count)]) }

/-- `HashRateTracker::get_total_hashes` (hash_rate.rs:96-110): evict old
events, then sum the remaining counts; returns the mutated state and the
total. -/
def getTotalHashes (now : Nat) (s : TrackerState) : TrackerState × Nat :=
  let evs := evictOld (now - windowNs) s.events
  ({ s with events := evs }, (evs.map Prod.snd).sum)

/-- `HashRateTracker::get_hash_rate` (hash_rate.rs:113-146): evict old
events, sum the counts of events with timestamp ≥ cutoff, divide by the
time since the first such event clamped to ≥ 1 ms; 0 when no event
qualifies.  The `f64` arithmetic is modelled exactly over `ℚ`. -/
def getHashRate (now : Nat) (s : TrackerState) : TrackerState × ℚ :=
  let cutoff := now - windowNs
  let evs := evictOld cutoff s.events
  let valid := evs.filter (fun e => cutoff ≤ e.1)
  match valid with
  | [] => ({ s with events := evs }, 0)
  | (t, _) :: _ =>
    let total := (valid.map Prod.snd).sum
    let elapsedSec : ℚ := max (((now - t : Nat) : ℚ) / 1000000000) (1 / 1000)
    ({ s with events := evs }, (total : ℚ) / elapsedSec)

/-- A parsed JSON value, the image of `serde_json::Value` restricted to
what the inbound frames use (numbers are integers here; no inbound path
of the dispatcher inspects fractional numbers). -/
inductive JValue where
  | null : JValue
  | bool (b : Bool) : JValue
  | num (n : Int) : JValue
  | str (s : String) : JValue
  | arr (xs : List JValue) : JValue
  | obj (fields : List (String × JValue)) : JValue
deriving Repr

/-- First-match field lookup in a JSON object. -/
def lookupField (k : String) : List (String × JValue) → Option JValue
  | [] => none
  | (k', v) :: rest => if k' = k then some v else lookupField k rest

/-- `Value::as_str` (stratum.rs:39,42,44). -/
def JValue.asStr : JValue → Option String
  | .str s => some s
  | _ => none

/-- Deserialization of a `u32` field (e.g. `Response.id`). -/
def JValue.asU32 : JValue → Option Nat
  | .num n => if 0 ≤ n ∧ n < 2 ^ 32 then some n.toNat else none
  | _ => none

/-- Deserialization of an `i32` field (`Error.code`). -/
def JValue.asI32 : JValue → Option Int
  | .num n => if -(2 ^ 31) ≤ n ∧ n < 2 ^ 31 then some n else none
  | _ => none

/-- The pool-side RPC `Error` object (stratum/rpc/response.rs:7-10). -/
structure RpcError where
  code : Int
  message : String
deriving Repr, DecidableEq

/-- The two shapes of `MiningNotifyParams` (stratum.rs:20-27): any JSON
array, or an object carrying string fields `job_id`, `blob_hex`,
`seed_hash_hex`. -/
inductive MNParams where
  | array (xs : List JValue) : MNParams
  | object (job_id blob_hex seed_hash_hex : String) : MNParams
deriving Repr

/-- `TryFrom<MiningNotifyParams> for Job` (stratum.rs:29-64): an array
needs at least 3 elements whose first three are strings; blob and seed
are hex-decoded; `target = u32::MAX` in both shapes. -/
def jobFromNotify : MNParams → Except String Job
  | .array xs =>
    if xs.length < 3 then
      .error "mining.notify array must have at least 3 elements"
    else
      match (xs.getD 0 .null).asStr with
      | none => .error "job_id must be a string"
      | some jid =>
        match (xs.getD 1 .null).asStr with
        | none => .error "blob_hex must be a string"
        | some bh =>
          match (xs.getD 2 .null).asStr with
          | none => .error "seed_hash_hex must be a string"
          | some sh =>
            match hexDecode bh with
            | none => .error "invalid blob hex"
            | some blob =>
              match hexDecode sh with
              | none => .error "invalid seed hex"
              | some seed => .ok { id := jid, blob := blob, seed := seed, target := 2 ^ 32 - 1 }
  | .object jid bh sh =>
    match hexDecode bh with
    | none => .error "invalid blob hex"
    | some blob =>
      match hexDecode sh with
      | none => .error "invalid seed hex"
      | some seed => .ok { id := jid, blob := blob, seed := seed, target := 2 ^ 32 - 1 }

/-- serde untagged deserialization of `MiningNotifyParams`
(stratum.rs:18-27). -/
def parseMNParams : JValue → Option MNParams
  | .arr xs => some (.array xs)
  | .obj fs =>
    match lookupField "job_id" fs, lookupField "blob_hex" fs, lookupField "seed_hash_hex" fs with
    | some (.str a), some (.str b), some (.str c) => some (.object a b c)
    | _, _, _ => none
  | _ => none

/-- Modelled from the spec: serde deserialization of `Job` of src/job.rs
(not included under src/).  §6: params of the `job` method are a Job
object `\x7bid, blob: hex, seed: hex, target: uint32\x7d`. -/
def parseJob : JValue → Option Job
  | .obj fs =>
    match lookupField "id" fs, lookupField "blob" fs, lookupField "seed" fs,
        lookupField "target" fs with
    | some (.str i), some (.str b), some (.str s), some t =>
      match hexDecode b, hexDecode s, t.asU32 with
      | some blob, some seed, some tg => some { id := i, blob := blob, seed := seed, target := tg }
      | _, _, _ => none
    | _, _, _, _ => none
  | _ => none

/-- serde deserialization of `Request<P>` (stratum/rpc/request.rs:4-10):
an object whose `method` field is a string and whose `params` field
deserializes as `P`; `id` is `skip_deserializing`.  The method string's
content is never inspected. -/
def parseRequestWith {P : Type} (parseP : JValue → Option P) : JValue → Option P
  | .obj fs =>
    match lookupField "method" fs, lookupField "params" fs with
    | some (.str _), some p => parseP p
    | _, _ => none
  | _ => none

/-- Untagged `SetDifficultyParams` / `SetExtranonceParams`
(stratum/rpc/response.rs:71-83): any JSON array. -/
def parseArrParams : JValue → Option (List JValue)
  | .arr xs => some xs
  | _ => none

/-- Deserialization of an `Option<T>` struct field: absent or `null`
yields `none`; a present value must deserialize as `T`. -/
def parseOptField {α : Type} (fs : List (String × JValue)) (k : String)
    (p : JValue → Option α) : Option (Option α) :=
  match lookupField k fs with
  | none => some none
  | some .null => some none
  | some v => (p v).map some

/-- Deserialization of `Error` (stratum/rpc/response.rs:6-10). -/
def parseRpcError : JValue → Option RpcError
  | .obj fs =>
    match lookupField "code" fs, lookupField "message" fs with
    | some c, some (.str m) =>
      match c.asI32 with
      | some code => some { code := code, message := m }
      | none => none
    | _, _ => none
  | _ => none

/-- Deserialization of `Response<R>` (stratum/rpc/response.rs:13-18): an
object with a required `u32` field `id` and optional `result` / `error`
fields. -/
def parseResponseWith {R : Type} (parseR : JValue → Option R) :
    JValue → Option (Option R × Option RpcError)
  | .obj fs =>
    match lookupField "id" fs with
    | some idv =>
      match idv.asU32 with
      | some _ =>
        match parseOptField fs "result" parseR, parseOptField fs "error" parseRpcError with
        | some r, some e => some (r, e)
        | _, _ => none
      | none => none
    | none => none
  | _ => none

/-- Deserialization of `SubscribeResult` (stratum/rpc/response.rs:36-40):
any JSON object whose `result` field, when present, is an array
(the field carries `serde(default)`). -/
def parseSubscribeResult : JValue → Option Unit
  | .obj fs =>
    match lookupField "result" fs with
    | none => some ()
    | some (.arr _) => some ()
    | some _ => none
  | _ => none

/-- Deserialization of `StatusResult` (stratum/rpc/response.rs:29-31). -/
def parseStatusResult : JValue → Option String
  | .obj fs =>
    match lookupField "status" fs with
    | some (.str s) => some s
    | _ => none
  | _ => none

/-- Deserialization of a `bool` result (`Response<bool>`). -/
def parseBoolResult : JValue → Option Bool
  | .bool b => some b
  | _ => none

/-- The untagged `PoolMessage` variants (stratum.rs:67-77), in serde's
declaration order. -/
inductive PoolMsg where
  | miningNotify (p : MNParams) : PoolMsg
  | newJob (j : Job) : PoolMsg
  | setDifficulty (xs : List JValue) : PoolMsg
  | setExtranonce (xs : List JValue) : PoolMsg
  | responseSubscribe (result : Option Unit) (error : Option RpcError) : PoolMsg
  | responseBool (result : Option Bool) (error : Option RpcError) : PoolMsg
  | response (result : Option String) (error : Option RpcError) : PoolMsg
deriving Repr

/-- serde untagged deserialization of `PoolMessage` (stratum.rs:67-77):
the variants are tried in declaration order and the first success wins;
no variant inspects the `method` string's content. -/
def parsePoolMsg (v : JValue) : Option PoolMsg :=
  match parseRequestWith parseMNParams v with
  | some p => some (.miningNotify p)
  | none =>
    match parseRequestWith parseJob v with
    | some j => some (.newJob j)
    | none =>
      match parseRequestWith parseArrParams v with
      | some xs => some (.setDifficulty xs)
      | none =>
        match parseRequestWith parseArrParams v with
        | some xs => some (.setExtranonce xs)
        | none =>
          match parseResponseWith parseSubscribeResult v with
          | some (r, e) => some (.responseSubscribe r e)
          | none =>
            match parseResponseWith parseBoolResult v with
            | some (r, e) => some (.responseBool r e)
            | none =>
              match parseResponseWith parseStatusResult v with
              | some (r, e) => some (.response r e)
              | none => none

/-- The externally visible action the listener takes on one parsed line
(stratum.rs:176-252): push a Job onto the job queue and keep reading,
log only and keep reading, or send a reconnect signal and stop. -/
inductive DispatchResult where
  | pushJob (j : Job) : DispatchResult
  | ignore : DispatchResult
  | reconnectStop : DispatchResult
deriving Repr, DecidableEq

/-- The listener's per-variant handling (stratum.rs:177-246): responses
and set_difficulty / set_extranonce are logged only; `job` pushes its
Job; `mining.notify` pushes the converted Job or logs the conversion
error. -/
def dispatchMsg : PoolMsg → DispatchResult
  | .miningNotify p =>
    match jobFromNotify p with
    | .ok j => .pushJob j
    | .error _ => .ignore
  | .newJob j => .pushJob j
  | .setDifficulty _ => .ignore
  | .setExtranonce _ => .ignore
  | .responseSubscribe _ _ => .ignore
  | .responseBool _ _ => .ignore
  | .response _ _ => .ignore

/-- One listener iteration on a successfully read, JSON-parsed line
(stratum.rs:176-252): dispatch the parsed `PoolMessage`, or — when no
variant matches — log, signal reconnect and break (the `Err` arm,
stratum.rs:247-251). -/
def listenerDispatch (v : JValue) : DispatchResult :=
  match parsePoolMsg v with
  | some m => dispatchMsg m
  | none => .reconnectStop

/-- The outcome of handling the login response (stratum.rs:124-133):
`result` present yields the session token and initial job; otherwise the
code evaluates `response.error.unwrap().message`, which panics when
`error` is also absent — modelled by `panics`. -/
inductive LoginOutcome where
  | ok (login_id : String) (job : Job) : LoginOutcome
  | ioError (msg : String) : LoginOutcome
  | panics : LoginOutcome
deriving Repr, DecidableEq

/-- `_connect_and_login`'s handling of the deserialized login response
(stratum.rs:124-133). -/
def handleLoginResponse (result : Option (String × Job)) (error : Option RpcError) :
    LoginOutcome :=
  match result with
  | some (id, job) => .ok id job
  | none =>
    match error with
    | some e => .ioError e.message
    | none => .panics

/-- The local TCP write half as `submit` / `keep_alive` see it: whether
serializing, writing and flushing the request line succeeds
(stratum/rpc.rs:11-19). -/
structure TcpWriter where
  ok : Bool
deriving Repr, DecidableEq

/-- The serialized submit request (stratum.rs:280-293 together with
stratum/rpc/request.rs:57-75): `\x7bmethod: "submit", params: \x7bid,
job_id, nonce: hex, result: hex\x7d, id: 1\x7d`. -/
def submitRequest (login_id : String) (sh : Share) : JValue :=
  .obj [("method", .str "submit"),
        ("params", .obj [("id", .str login_id), ("job_id", .str sh.job_id),
                         ("nonce", .str (hexEncode sh.nonce)),
                         ("result", .str (hexEncode sh.hash))]),
        ("id", .num 1)]

/-- `rpc::send` (stratum/rpc.rs:11-19): serialize the request, write it
followed by LF, flush; succeeds exactly when the local writer accepts
the bytes. -/
def sendRequest (w : TcpWriter) (_req : JValue) : Except String Unit :=
  if w.ok then .ok () else .error "io error"

/-- `Stratum::submit` (stratum.rs:280-293): serialize the submit request
for the share and send it through the owned writer; the returned result
is whatever `rpc::send` returned. -/
def stratumSubmit (w : TcpWriter) (login_id : String) (sh : Share) : Except String Unit :=
  sendRequest w (submitRequest login_id sh)

/-- The fate of one supervisor-loop iteration with respect to the
keep-alive call. -/
inductive LoopStep where
  | continues : LoopStep
  | terminates (msg : String) : LoopStep
deriving Repr, DecidableEq

/-- The console mining loop's keep-alive call (main.rs:407-410):
`stratum.keep_alive()?` — an `Err` propagates out of `main`, ending the
loop and the process. -/
def consoleKeepAliveStep (r : Except String Unit) : LoopStep :=
  match r with
  | .ok _ => .continues
  | .error e => .terminates e

/-- The GUI mining loop's keep-alive call (main.rs:233-238): an `Err` is
sent to the log channel and the loop continues. -/
def guiKeepAliveStep (r : Except String Unit) : LoopStep :=
  match r with
  | .ok _ => .continues
  | .error _ => .continues

/-- Concrete hash oracle for witnesses: always returns 32 zero bytes. -/
def wHashOracle : List Nat → Option (List Nat) := fun _ => some (List.replicate 32 0)

/-- Concrete worker state for the share-correctness witness. -/
def wSt : WorkerState :=
  { nonce_counter := 0, blob := List.replicate 43 0, difficulty := 5, job_id := "j",
    current_seed := [], vm := some [] }

/-- `wSt` after one hash step with step 1. -/
def wStAfter : WorkerState :=
  { nonce_counter := 1, blob := List.replicate 39 0 ++ [0, 0, 0, 1], difficulty := 5,
    job_id := "j", current_seed := [], vm := some [] }

/-- The share `wSt` emits on that step. -/
def wShare : Share := { job_id := "j", nonce := [0, 0, 0, 1], hash := List.replicate 32 0 }

/-- Oracle on which the seed-change cache rebuild fails (worker.rs:144-147),
all later operations succeeding. -/
def c4Oracle : RxOracle :=
  { cacheNew := fun _ => false, reinitCache := true, vmNewAfterReinitFail := true,
    vmNewFresh := true, fullMem := false, datasetNew := true, datasetNewFallback := true,
    reinitDataset := true, vmNewAfterReinitDatasetFail := true }

/-- Oracle on which every fallible RandomX operation succeeds. -/
def c4GoodOracle : RxOracle :=
  { cacheNew := fun _ => true, reinitCache := true, vmNewAfterReinitFail := true,
    vmNewFresh := true, fullMem := true, datasetNew := true, datasetNewFallback := true,
    reinitDataset := true, vmNewAfterReinitDatasetFail := true }

/-- Worker state with a live VM built from seed `[1]`. -/
def c4St : WorkerState :=
  { nonce_counter := 0, blob := List.replicate 43 0, difficulty := 5, job_id := "a",
    current_seed := [1], vm := some [1] }

/-- A job carrying the new seed `[2]`. -/
def c4Job : Job := { id := "b", blob := List.replicate 43 0, seed := [2], target := 1 }

/-- mining.notify params whose blob hex decodes to only 4 bytes. -/
def c3ShortParams : MNParams := .array [.str "J1", .str "deadbeef", .str "aa"]

/-- Worker state a short-blob job produces: 4-byte blob, live VM. -/
def c3ShortSt : WorkerState :=
  { nonce_counter := 0, blob := [222, 173, 190, 239], difficulty := 5, job_id := "J1",
    current_seed := [170], vm := some [170] }

/-- An inbound line with an unrecognized method whose params are an array
of three strings. -/
def c5Line : JValue :=
  .obj [("method", .str "unknown.method"), ("params", .arr [.str "J1", .str "ab", .str "cd"])]

/-- Helper: what one hash step leaves unchanged and what it guarantees
about an emitted share (worker.rs:229-264). -/
theorem hashStep_spec (step : Nat) (hash : List Nat → Option (List Nat))
    (st st' : WorkerState) (osh : Option Share)
    (h : hashStep step hash st = some (st', osh)) :
    st'.difficulty = st.difficulty ∧ st'.job_id = st.job_id ∧
    st'.current_seed = st.current_seed ∧ st'.vm = st.vm ∧
    st'.nonce_counter = (st.nonce_counter + step) % 2 ^ 32 ∧
    (∀ sh, osh = some sh → sh.job_id = st.job_id ∧ le64 sh.hash < st.difficulty) := by
  simp only [hashStep] at h
  split at h
  · exact Option.noConfusion h
  · split at h
    · injection h with h
      injection h with h1 h2
      subst h1
      subst h2
      refine ⟨rfl, rfl, rfl, rfl, rfl, ?_⟩
      intro sh hsh
      cases hsh
    · split_ifs at h with hlt
      · injection h with h
        injection h with h1 h2
        subst h1
        subst h2
        refine ⟨rfl, rfl, rfl, rfl, rfl, ?_⟩
        intro sh hsh
        injection hsh with e
        subst e
        exact ⟨rfl, hlt⟩
      · injection h with h
        injection h with h1 h2
        subst h1
        subst h2
        refine ⟨rfl, rfl, rfl, rfl, rfl, ?_⟩
        intro sh hsh
        cases hsh

/-- C1: every Share emitted during a batch of hash evaluations
(worker.rs:229-265) carries the worker's current job id, and the
little-endian u64 of bytes 24..32 of its hash is strictly less than the
difficulty of that current job; nothing is emitted otherwise.  Job id and
difficulty are constant across a batch (the job slot is only polled
between batches, worker.rs:137). -/
theorem c1_share_difficulty (step : Nat) (hash : List Nat → Option (List Nat)) :
    ∀ (n : Nat) (st st' : WorkerState) (shares : List Share),
      runBatch step hash n st = some (st', shares) →
      ∀ sh ∈ shares, sh.job_id = st.job_id ∧ le64 sh.hash < st.difficulty := by
  intro n
  induction n with
  | zero =>
    intro st st' shares h sh hm
    simp only [runBatch] at h
    injection h with h
    injection h with h1 h2
    subst h2
    cases hm
  | succ n ih =>
    intro st st' shares h sh hm
    simp only [runBatch] at h
    split at h
    · exact Option.noConfusion h
    · rename_i st1 osh heq1
      split at h
      · exact Option.noConfusion h
      · rename_i st2 shs heq2
        injection h with h
        injection h with he1 he2
        subst he1
        subst he2
        have hspec := hashStep_spec step hash st st1 osh heq1
        rcases List.mem_append.mp hm with hm1 | hm2
        · cases osh with
          | none => cases hm1
          | some s0 =>
            have hs0 : sh = s0 := by simpa using hm1
            subst hs0
            exact hspec.2.2.2.2.2 sh rfl
        · have hrec := ih st1 st2 shs heq2 sh hm2
          exact ⟨hrec.1.trans hspec.2.1, hspec.1 ▸ hrec.2⟩

/-- Witness for C1: a concrete one-hash batch that emits one share. -/
theorem c1_share_difficulty_witness :
    wShare.job_id = wSt.job_id ∧ le64 wShare.hash < wSt.difficulty :=
  c1_share_difficulty 1 wHashOracle 1 wSt wStAfter [wShare] (by decide) wShare
    (List.mem_singleton.mpr rfl)

/-- The wrapping-u32 nonce formula collapses to a single reduction. -/
theorem workerNonce_eq (i N k : Nat) : workerNonce i N k = (i + k * N) % 2 ^ 32 := by
  have h : (i % 2 ^ 32 + k * (N % 2 ^ 32)) ≡ (i + k * N) [MOD 2 ^ 32] :=
    Nat.ModEq.add (Nat.mod_modEq i (2 ^ 32)) (Nat.ModEq.mul_left k (Nat.mod_modEq N (2 ^ 32)))
  exact h

/-- After `n` hash steps of a batch, the worker's counter holds exactly
the wrapping value `(start + n·step) % 2^32` (worker.rs:230). -/
theorem runBatch_nonce_counter (step : Nat) (hash : List Nat → Option (List Nat)) :
    ∀ (n : Nat) (st st' : WorkerState) (shs : List Share),
      st.nonce_counter < 2 ^ 32 →
      runBatch step hash n st = some (st', shs) →
      st'.nonce_counter = (st.nonce_counter + n * step) % 2 ^ 32 := by
  intro n
  induction n with
  | zero =>
    intro st st' shs hlt h
    simp only [runBatch] at h
    injection h with h
    injection h with h1 h2
    subst h1
    rw [Nat.zero_mul, Nat.add_zero, Nat.mod_eq_of_lt hlt]
  | succ n ih =>
    intro st st' shs hlt h
    simp only [runBatch] at h
    split at h
    · exact Option.noConfusion h
    · rename_i st1 osh heq1
      split at h
      · exact Option.noConfusion h
      · rename_i st2 shs2 heq2
        injection h with h
        injection h with he1 he2
        subst he1
        have hn1 : st1.nonce_counter = (st.nonce_counter + step) % 2 ^ 32 :=
          (hashStep_spec step hash st st1 osh heq1).2.2.2.2.1
        have hrec := ih st1 st2 shs2 (hn1 ▸ Nat.mod_lt _ (by norm_num)) heq2
        rw [hrec, hn1, Nat.mod_add_mod]
        congr 1
        ring

/-- Helper for C2: two in-window nonce indices that produce equal wrapped
values force equal worker offsets. -/
theorem workerNonce_window_inj (N i j k1 k2 s : Nat) (hi : i < N) (hj : j < N)
    (h1l : s ≤ k1) (h1r : k1 < s + 2 ^ 32 / N) (h2l : s ≤ k2) (h2r : k2 < s + 2 ^ 32 / N)
    (hle : i + k1 * N ≤ j + k2 * N)
    (h : (i + k1 * N) % 2 ^ 32 = (j + k2 * N) % 2 ^ 32) : i = j := by
  have hK1 : 1 ≤ 2 ^ 32 / N := by omega
  have hKN : 2 ^ 32 / N * N ≤ 2 ^ 32 := Nat.div_mul_le_self _ _
  have hNC : N ≤ 2 ^ 32 / N * N := Nat.le_mul_of_pos_left N hK1
  have hA : s * N ≤ k1 * N := Nat.mul_le_mul_right N h1l
  have hB : k2 * N ≤ (s + 2 ^ 32 / N - 1) * N := Nat.mul_le_mul_right N (by omega)
  have hExp : (s + 2 ^ 32 / N - 1) * N = s * N + 2 ^ 32 / N * N - N := by
    rw [Nat.sub_mul, Nat.add_mul, one_mul]
  have hd : 2 ^ 32 ∣ j + k2 * N - (i + k1 * N) := (Nat.modEq_iff_dvd' hle).mp h
  have h32 : (2 : Nat) ^ 32 = 4294967296 := by norm_num
  rw [hExp] at hB
  simp only [h32] at *
  have e : i + k1 * N = j + k2 * N := by omega
  have e2 : i % N = j % N := by
    have := congrArg (fun x => x % N) e
    simpa [Nat.add_mul_mod_self_right] using this
  rwa [Nat.mod_eq_of_lt hi, Nat.mod_eq_of_lt hj] at e2

/-- C2: for workers `i ≠ j` of `N` (offset `i`, step `N`, wrapping u32
counter, worker.rs:54-56,230), the nonces evaluated at any two positions
`k1, k2` lying in the same window of `2^32 / N` contiguous hash
evaluations are distinct, so the nonce sets written into the blob by two
distinct workers over such a window are disjoint. -/
theorem c2_nonce_disjoint (N i j k1 k2 s : Nat) (hi : i < N) (hj : j < N) (hij : i ≠ j)
    (h1l : s ≤ k1) (h1r : k1 < s + 2 ^ 32 / N) (h2l : s ≤ k2) (h2r : k2 < s + 2 ^ 32 / N) :
    workerNonce i N k1 ≠ workerNonce j N k2 := by
  rw [workerNonce_eq, workerNonce_eq]
  intro h
  rcases le_total (i + k1 * N) (j + k2 * N) with hle | hle
  · exact hij (workerNonce_window_inj N i j k1 k2 s hi hj h1l h1r h2l h2r hle h)
  · exact hij ((workerNonce_window_inj N j i k2 k1 s hj hi h2l h2r h1l h1r hle h.symm).symm)

/-- Witness for C2: with 2 workers, the first hashes of workers 0 and 1
use distinct nonces. -/
theorem c2_nonce_disjoint_witness : workerNonce 0 2 1 ≠ workerNonce 1 2 1 :=
  c2_nonce_disjoint 2 0 1 1 1 1 (by decide) (by decide) (by decide) (by decide)
    (by norm_num) (by decide) (by norm_num)

/-- C3: the claim that no inbound pool frame can panic the program is
right about the intended behavior (spec §7) but the code violates it: a
login response with both `result` and `error` absent reaches
`response.error.unwrap()` (stratum.rs:130) and panics, and a
`mining.notify` whose hex blob decodes to fewer than 43 bytes is accepted
as a Job whose blob later panics the worker's `blob[39..=42]` write
(worker.rs:233), modelled by the `none` outcome of `hashStep`. -/
theorem c3_inbound_panics :
    handleLoginResponse none none = LoginOutcome.panics ∧
    jobFromNotify c3ShortParams =
      .ok { id := "J1", blob := [222, 173, 190, 239], seed := [170], target := 2 ^ 32 - 1 } ∧
    hashStep 1 wHashOracle c3ShortSt = none := by
  refine ⟨rfl, ?_, rfl⟩
  rfl

/-- C4 counterexample: when the seed-change cache rebuild fails
(worker.rs:144-147), `current_seed` has already been reassigned
(worker.rs:139) while the live VM still holds the old seed, and the
worker proceeds to hash with it (`vm` is still `some`), so the invariant
"seed held by VM always equals current_seed" is false at a hashing
point. -/
theorem c4_seed_invariant_cex :
    (jobUpdate 0 c4Oracle c4St c4Job).vm = some [1] ∧
    (jobUpdate 0 c4Oracle c4St c4Job).current_seed = [2] ∧
    ¬ seedInv (jobUpdate 0 c4Oracle c4St c4Job) := by
  refine ⟨rfl, rfl, ?_⟩
  decide

/-- C4 amended: provided the fallible rebuild operations on the
seed-change path succeed (cache creation, in-place cache
reinitialization, fresh VM construction when none exists), the
job-update step preserves the invariant that the live VM's seed equals
`current_seed`; and a hash step never disturbs it. -/
theorem c4_seed_invariant_amended :
    (∀ offset o st j, o.cacheNew j.seed = true → o.reinitCache = true → o.vmNewFresh = true →
      seedInv st → seedInv (jobUpdate offset o st j)) ∧
    (∀ step hash st st' osh, hashStep step hash st = some (st', osh) →
      seedInv st → seedInv st') := by
  constructor
  · intro offset o st j hc hr hv hinv
    unfold jobUpdate
    by_cases hs : st.current_seed = j.seed
    · rw [if_pos hs]
      intro s hvm
      exact hinv s hvm
    · rw [if_neg hs, hc]
      simp only [Bool.true_eq_false, if_false]
      cases hvm0 : st.vm with
      | some s0 =>
        simp only [hvm0, hr, if_true]
        cases o.fullMem <;> cases o.datasetNew <;> cases o.datasetNewFallback <;>
          cases o.reinitDataset <;> cases o.vmNewAfterReinitDatasetFail <;>
          (intro s hvm; simp_all)
      | none =>
        simp only [hvm0, hv, if_true]
        cases o.fullMem <;> cases o.datasetNew <;> cases o.datasetNewFallback <;>
          cases o.reinitDataset <;> cases o.vmNewAfterReinitDatasetFail <;>
          (intro s hvm; simp_all)
  · intro step hash st st' osh h hinv
    have hspec := hashStep_spec step hash st st' osh h
    intro s hvm
    rw [hspec.2.2.1]
    exact hinv s (hspec.2.2.2.1 ▸ hvm)

/-- Witness for C4 amended: with an all-success oracle the invariant is
preserved across a concrete seed change. -/
theorem c4_seed_invariant_amended_witness :
    seedInv (jobUpdate 0 c4GoodOracle c4St c4Job) :=
  c4_seed_invariant_amended.1 0 c4GoodOracle c4St c4Job rfl rfl rfl (by decide)

/-- C5 counterexample: an inbound line with the unrecognized method
`"unknown.method"` and an array of three strings as params is not
ignored — the untagged `PoolMessage` deserializer (stratum.rs:67-77)
matches it as `MiningNotify` without inspecting the method string, and
the listener pushes a Job built from it onto the job queue
(stratum.rs:215-231). -/
theorem c5_unknown_method_cex :
    listenerDispatch c5Line =
      .pushJob { id := "J1", blob := [171], seed := [205], target := 2 ^ 32 - 1 } := by
  rfl

/-- C5 amended: the listener gives method names no special treatment at
all — its action on an inbound object line is independent of the method
string (classification is purely by shape, stratum.rs:67-77,176-252), so
a line with an unrecognized method is handled exactly as the same-shaped
line with a recognized one: it may push a Job, be logged and ignored, or
trigger reconnect-and-stop. -/
theorem c5_method_independent (m₁ m₂ : String) (rest : List (String × JValue)) :
    listenerDispatch (.obj (("method", .str m₁) :: rest)) =
      listenerDispatch (.obj (("method", .str m₂) :: rest)) := by
  simp only [listenerDispatch, parsePoolMsg, parseRequestWith, parseResponseWith, parseOptField,
    lookupField, reduceIte]
  cases lookupField "params" rest <;> rfl

/-- C6 counterexample: in console mode the keep-alive call is
`stratum.keep_alive()?` (main.rs:409), so a send failure propagates out
of the mining loop and terminates the process, contradicting the claim
that a keep-alive failure never terminates the loop. -/
theorem c6_keepalive_cex :
    consoleKeepAliveStep (.error "broken pipe") = .terminates "broken pipe" := rfl

/-- C6 amended: in GUI mode a keep-alive failure is logged and the loop
continues (main.rs:233-238); in console mode any keep-alive failure
propagates and terminates the mining loop and the process
(main.rs:407-410). -/
theorem c6_keepalive_amended :
    (∀ e, consoleKeepAliveStep (.error e) = .terminates e) ∧
    (∀ r, guiKeepAliveStep r = .continues) := by
  refine ⟨fun e => rfl, fun r => ?_⟩
  cases r <;> rfl

/-- C7: the donation controller's desired state at tick time τ
(main.rs:423-428 with the startup clamp main.rs:104) is true exactly when
`50·60 ≤ τ % 6000 < 50·60 + 60·max(1, donate_level)`. -/
theorem c7_donation_window (dl τ : Nat) :
    shouldBeDonating dl τ = true ↔
      50 * 60 ≤ τ % 6000 ∧ τ % 6000 < 50 * 60 + 60 * max 1 dl := by
  simp only [shouldBeDonating, donateLevelEffective, Bool.and_eq_true, decide_eq_true_eq]
  omega

/-- C8: an `increment` called while `now - START_TIME < 45 s`
(hash_rate.rs:62-70) leaves the tracker state unchanged — it appends no
event — so every subsequent `get_total_hashes` / `get_hash_rate` returns
exactly what it would have without the call; in particular 0 and 0 when
no post-warmup increment has occurred. -/
theorem c8_warmup_gate (start now count : Nat) (s : TrackerState)
    (h : now - start < warmupNs) :
    TrackerState.increment start now count s = s ∧
    (∀ t, getTotalHashes t (TrackerState.increment start now count s) = getTotalHashes t s) ∧
    (∀ t, getHashRate t (TrackerState.increment start now count s) = getHashRate t s) ∧
    (s.events = [] → (getTotalHashes now s).2 = 0 ∧ (getHashRate now s).2 = 0) := by
  have hinc : TrackerState.increment start now count s = s := by
    simp [TrackerState.increment, h]
  refine ⟨hinc, fun t => by rw [hinc], fun t => by rw [hinc], fun he => ?_⟩
  constructor
  · simp [getTotalHashes, he, evictOld]
  · simp [getHashRate, he, evictOld]

/-- Witness for C8: a warm-up-time increment of one million hashes at
10 s after start is a no-op and the observables stay zero. -/
theorem c8_warmup_gate_witness :
    TrackerState.increment 0 10000000000 1000000 { events := [], warmupComplete := false } =
      { events := [], warmupComplete := false } ∧
    (getTotalHashes 10000000000 { events := [], warmupComplete := false }).2 = 0 ∧
    (getHashRate 10000000000 { events := [], warmupComplete := false }).2 = 0 := by
  have h := c8_warmup_gate 0 10000000000 1000000 { events := [], warmupComplete := false }
    (by norm_num [warmupNs])
  exact ⟨h.1, (h.2.2.2 rfl).1, (h.2.2.2 rfl).2⟩

/-- C9: a `mining.notify` params array of at least three strings with
valid hex becomes a Job whose id is the first element, whose blob and
seed are the decoded second and third elements and whose target is the
sentinel `u32::MAX` (stratum.rs:34-53), with difficulty `2^64 - 1`; the
object form behaves identically (stratum.rs:54-61); arrays of fewer than
three elements or with invalid hex yield no Job. -/
theorem c9_mining_notify :
    (∀ jid bh sh rest blob seed, hexDecode bh = some blob → hexDecode sh = some seed →
      jobFromNotify (.array (.str jid :: .str bh :: .str sh :: rest)) =
        .ok { id := jid, blob := blob, seed := seed, target := 2 ^ 32 - 1 } ∧
      Job.difficulty { id := jid, blob := blob, seed := seed, target := 2 ^ 32 - 1 } =
        2 ^ 64 - 1) ∧
    (∀ jid bh sh blob seed, hexDecode bh = some blob → hexDecode sh = some seed →
      jobFromNotify (.object jid bh sh) =
        .ok { id := jid, blob := blob, seed := seed, target := 2 ^ 32 - 1 }) ∧
    (∀ xs, xs.length < 3 → (jobFromNotify (.array xs)).isOk = false) ∧
    (∀ jid bh sh rest, hexDecode bh = none →
      (jobFromNotify (.array (.str jid :: .str bh :: .str sh :: rest))).isOk = false) ∧
    (∀ jid bh sh rest blob, hexDecode bh = some blob → hexDecode sh = none →
      (jobFromNotify (.array (.str jid :: .str bh :: .str sh :: rest))).isOk = false) := by
  have hdiff : ∀ jid blob seed,
      Job.difficulty { id := jid, blob := blob, seed := seed, target := 2 ^ 32 - 1 } =
        2 ^ 64 - 1 := by
    intro jid blob seed
    simp [Job.difficulty]
  refine ⟨?_, ?_, ?_, ?_, ?_⟩
  · intro jid bh sh rest blob seed hb hs
    refine ⟨?_, hdiff jid blob seed⟩
    simp [jobFromNotify, JValue.asStr, hb, hs]
  · intro jid bh sh blob seed hb hs
    simp [jobFromNotify, hb, hs]
  · intro xs hlen
    dsimp only [jobFromNotify]
    rw [if_pos hlen]
    rfl
  · intro jid bh sh rest hb
    dsimp only [jobFromNotify, List.getD, List.get?, Option.getD, JValue.asStr]
    rw [if_neg (by simp)]
    rw [hb]
    rfl
  · intro jid bh sh rest blob hb hs
    dsimp only [jobFromNotify, List.getD, List.get?, Option.getD, JValue.asStr]
    rw [if_neg (by simp)]
    rw [hb, hs]
    rfl

/-- Witness for C9: the spec's S5 scenario on concrete hex strings, plus
a too-short array and an invalid-hex array yielding no Job. -/
theorem c9_mining_notify_witness :
    jobFromNotify (.array [.str "J1", .str "deadbeef", .str "cafebabe"]) =
      .ok { id := "J1", blob := [222, 173, 190, 239], seed := [202, 254, 186, 190],
            target := 2 ^ 32 - 1 } ∧
    Job.difficulty { id := "J1", blob := [222, 173, 190, 239], seed := [202, 254, 186, 190],
                     target := 2 ^ 32 - 1 } = 2 ^ 64 - 1 ∧
    (jobFromNotify (.array [.str "J1"])).isOk = false ∧
    (jobFromNotify (.array [.str "J1", .str "zz", .str "aa"])).isOk = false := by
  have h1 := c9_mining_notify.1 "J1" "deadbeef" "cafebabe" []
    [222, 173, 190, 239] [202, 254, 186, 190] (by decide) (by decide)
  have h3 := c9_mining_notify.2.2.1 [.str "J1"] (by decide)
  have h4 := c9_mining_notify.2.2.2.1 "J1" "zz" "aa" [] (by decide)
  exact ⟨h1.1, h1.2, h3, h4⟩

/-- C10: `Stratum::submit` (stratum.rs:280-293) succeeds exactly when the
serialized submit request is accepted by the local TCP writer, and the
pool's later verdict cannot feed back into it: the listener handles
every response variant (stratum.rs:177-206) by logging only — it pushes
no job and signals nothing to the submitter. -/
theorem c10_submit_local :
    (∀ w lid sh, stratumSubmit w lid sh = .ok () ↔ w.ok = true) ∧
    (∀ r e, dispatchMsg (.response r e) = .ignore) ∧
    (∀ r e, dispatchMsg (.responseBool r e) = .ignore) ∧
    (∀ r e, dispatchMsg (.responseSubscribe r e) = .ignore) := by
  refine ⟨fun w lid sh => ?_, fun r e => rfl, fun r e => rfl, fun r e => rfl⟩
  unfold stratumSubmit sendRequest
  cases w with
  | mk ok => cases ok <;> simp
